import Mathlib

/-!
Shallow embedding of the Test Authoring Orchestrator frontend
(GenerateTab and ReviewTab components) for specification checking.

The embedding models:
* `parseTestCaseIds` — splitting the raw identifier textarea into ids;
* `handleGenerate` — the sequential batch loop (fetch test case,
  call the generation endpoint, save the file), together with an
  explicit event trace recording every HTTP request issued, every
  progress-callback invocation and every live-results update;
* `handleDryRun`, `handleImprove`, `applyImprovement` — the
  review-tab operations on the uploaded-file working set.

External collaborators (the backend endpoints) are modelled as an
explicit environment of response functions; a thrown JavaScript
exception is modelled as the error branch of an outcome type.
-/

namespace AIAgent

/-- JavaScript `\s` (ASCII part): space, tab, newline, carriage return,
vertical tab, form feed.  Used by the id separator regex and by `trim`. -/
def isJsSpace (c : Char) : Bool :=
  c = ' ' || c = '\t' || c = '\n' || c = '\r' || c = '\x0b' || c = '\x0c'

/-- Character class of the separator regex `[,\s\n]+` in
`parseTestCaseIds`: a comma or any whitespace character. -/
def isIdSep (c : Char) : Bool :=
  c = ',' || isJsSpace c

/-- JavaScript `String.prototype.trim` on the character list: drop
whitespace from both ends. -/
def jsTrimList (l : List Char) : List Char :=
  ((l.dropWhile isJsSpace).reverse.dropWhile isJsSpace).reverse

/-- JavaScript `s.trim()`. -/
def jsTrim (s : String) : String :=
  String.mk (jsTrimList s.data)

/-- JavaScript `x || dflt` for an optional string `x`: the default is
taken when the field is absent (`undefined`) or the empty string
(both falsy). -/
def jsOrStr (o : Option String) (dflt : String) : String :=
  match o with
  | some s => if s = "" then dflt else s
  | none => dflt

/-- Token accumulator for `parseTestCaseIds`.  Walks the input,
collecting maximal runs of non-separator characters (`cur` holds the
current run, reversed).  This computes the composite
`input.split(/[,\s\n]+/).map(trim).filter(len > 0)` of the source:
the split pieces contain no separator (hence no whitespace)
characters, so `trim` is the identity on them, and the only empty
pieces the regex split can produce are at the boundaries, which the
`filter` removes. -/
def tokenizeIds (cur : List Char) : List Char → List (List Char)
  | [] => if cur.isEmpty then [] else [cur.reverse]
  | c :: rest =>
    if isIdSep c then
      if cur.isEmpty then tokenizeIds [] rest
      else cur.reverse :: tokenizeIds [] rest
    else tokenizeIds (c :: cur) rest

/-- Function `parseTestCaseIds` (GenerateTab): split the textarea content on
commas/whitespace, trim, and drop empty entries. -/
def parseTestCaseIds (input : String) : List String :=
  (tokenizeIds [] input.data).map String.mk

/-- JavaScript `s.replace(/\s+/g, '_')`: every maximal whitespace run
becomes a single underscore.  `prev` records whether the previous
character was part of a whitespace run. -/
def squashWsAux (prev : Bool) : List Char → List Char
  | [] => []
  | c :: rest =>
    if isJsSpace c then
      if prev then squashWsAux true rest
      else '_' :: squashWsAux true rest
    else c :: squashWsAux false rest

/-- Version of `s.replace(/\s+/g, '_')` on strings. -/
def squashWs (s : String) : String :=
  String.mk (squashWsAux false s.data)

/-- Fields of the test case returned by `/api/codebeamer/testcase/:id`;
each field may be absent from the JSON. -/
structure TestCaseData where
  name : Option String
  feature : Option String
  precondition : Option String
  steps : Option String
  expected : Option String
deriving DecidableEq, Repr

/-- Outcome of the CodeBeamer fetch for one id: the request (or JSON
decoding) threw, the response had a non-ok status, or an ok response
with a decoded body. -/
inductive FetchOutcome where
  | fail (msg : String)
  | notOk
  | ok (data : TestCaseData)
deriving DecidableEq, Repr

/-- Request body of `POST /api/test/generate-ai`. -/
structure GenBody where
  description : String
  test_type : String
  model : String
  automation_context : Option String
deriving DecidableEq, Repr

/-- Response body of `/api/test/generate-ai`; fields may be absent. -/
structure GenData where
  test_code : Option String
  validation : Option String
deriving DecidableEq, Repr

/-- Request body of `POST /api/test/save-file`. -/
structure SaveBody where
  folder_path : String
  filename : String
  content : String
deriving DecidableEq, Repr

/-- Outcome of the save-file request: the request threw, a non-ok
response carrying an optional `detail` field, or an ok response
carrying an optional `file_path` field. -/
inductive SaveOutcome where
  | fail (msg : String)
  | errResp (detail : Option String)
  | okResp (file_path : Option String)
deriving DecidableEq, Repr

/-- The backend as seen by GenerateTab: deterministic response
functions for the three endpoints the batch loop calls. -/
structure GenEnv where
  fetchTC : String → FetchOutcome
  genAI : GenBody → Except String GenData
  saveApi : SaveBody → SaveOutcome

/-- One per-identifier outcome record pushed by `handleGenerate`
(fields absent in one of the two branches are `none`). -/
structure GenerationResult where
  tcId : String
  status : String
  testCode : String
  testCaseName : Option String
  validation : Option String
  error : Option String
  saved : Bool
  savedPath : Option String
  saveError : Option String
deriving DecidableEq, Repr

/-- Observable events of a batch run: a `setCurrentProgress` callback
invocation, each HTTP request issued, and the live results update
(`setGeneratedTests`) after an item finishes. -/
inductive Event where
  | progress (current total : Nat) (tcId status : String)
  | fetchReq (tcId : String)
  | genReq (body : GenBody)
  | saveReq (body : SaveBody)
  | itemDone (tcId : String)
deriving DecidableEq, Repr

/-- Value of `testCaseData` after step 1 of the loop body: `some` only when the
fetch returned an ok response whose body decoded. -/
def fetchedSpec (env : GenEnv) (tcId : String) : Option TestCaseData :=
  match env.fetchTC tcId with
  | .fail _ => none
  | .notOk => none
  | .ok d => some d

/-- The prompt description: the structured form when the test case was
fetched, the degraded bare-identifier form when it was not. -/
def mkDescription (tcId : String) (spec : Option TestCaseData) : String :=
  match spec with
  | some d =>
    "Test Case ID: " ++ tcId ++
    "\nName: " ++ jsOrStr d.name "" ++
    "\nFeature: " ++ jsOrStr d.feature "" ++
    "\nPrecondition: " ++ jsOrStr d.precondition "" ++
    "\nTest Steps: " ++ jsOrStr d.steps "" ++
    "\nExpected Result: " ++ jsOrStr d.expected ""
  | none => "Generate Robot Framework test for Test Case ID: " ++ tcId

/-- The body sent to `/api/test/generate-ai` for one id
(`automation_context: mdContent || null`). -/
def genBodyFor (env : GenEnv) (model mdContent tcId : String) : GenBody :=
  { description := mkDescription tcId (fetchedSpec env tcId)
    test_type := "automotive"
    model := model
    automation_context := if mdContent = "" then none else some mdContent }

/-- Placeholder script used when the generation response carries no
`test_code`. -/
def noCodeFallback (tcId : String) : String :=
  "*** Test Cases ***\n# Generated for " ++ tcId ++ "\n# Error: No test code returned"

/-- Return value of `saveTestFile`. -/
structure SaveResult where
  success : Bool
  path : Option String
  error : Option String
deriving DecidableEq, Repr

/-- The filename built by `saveTestFile` from the id and the test case
name. -/
def saveFilename (tcId testCaseName : String) : String :=
  squashWs tcId ++ "_" ++ jsOrStr (some (squashWs testCaseName)) "test"

/-- Function `saveTestFile` (GenerateTab): posts the file and converts the
response into a `SaveResult`; the second component is the issued
request, recorded for the trace. -/
def saveTestFile (env : GenEnv) (folderPath tcId content testCaseName : String) :
    SaveResult × SaveBody :=
  let body : SaveBody :=
    { folder_path := folderPath, filename := saveFilename tcId testCaseName
      content := content }
  match env.saveApi body with
  | .fail msg => ({ success := false, path := none, error := some msg }, body)
  | .errResp detail =>
    ({ success := false, path := none
       error := some (jsOrStr detail "Failed to save file") }, body)
  | .okResp fp => ({ success := true, path := fp, error := none }, body)

/-- One iteration of the `handleGenerate` loop for the `i`-th id
(0-based; progress callbacks report `i + 1` of `total`).  The only
statement inside the outer `try` that can throw is the generation
call; the CodeBeamer fetch has its own inner `try` whose failure
leaves the spec `null`. -/
def processItem (env : GenEnv) (model mdContent folder : String)
    (total i : Nat) (tcId : String) : GenerationResult × List Event :=
  let pGen := Event.progress (i + 1) total tcId "Generating..."
  let spec := fetchedSpec env tcId
  let body := genBodyFor env model mdContent tcId
  match env.genAI body with
  | .error msg =>
    ({ tcId := tcId, status := "error"
       testCode := "*** Test Cases ***\n# Error generating test for " ++ tcId ++ ": " ++ msg
       testCaseName := none, validation := none, error := some msg
       saved := false, savedPath := none, saveError := none },
     [pGen, Event.fetchReq tcId, Event.genReq body, Event.itemDone tcId])
  | .ok data =>
    let testCode := jsOrStr data.test_code (noCodeFallback tcId)
    let testCaseName := jsOrStr (spec.bind TestCaseData.name) tcId
    let sv := saveTestFile env folder tcId testCode testCaseName
    ({ tcId := tcId, status := "success", testCode := testCode
       testCaseName := some testCaseName, validation := data.validation
       error := none, saved := sv.1.success, savedPath := sv.1.path
       saveError := sv.1.error },
     [pGen, Event.fetchReq tcId, Event.genReq body,
      Event.progress (i + 1) total tcId "Saving...", Event.saveReq sv.2,
      Event.itemDone tcId])

/-- The sequential batch loop from index `i` onwards: one result per
remaining id, events concatenated in order. -/
def runBatch (env : GenEnv) (model mdContent folder : String) (total : Nat) :
    Nat → List String → List GenerationResult × List Event
  | _, [] => ([], [])
  | i, tcId :: rest =>
    let step := processItem env model mdContent folder total i tcId
    let tail := runBatch env model mdContent folder total (i + 1) rest
    (step.1 :: tail.1, step.2 ++ tail.2)

/-- Result of `handleGenerate`: either rejected by the up-front
validation (before any request is issued) or completed with the
ordered result list and the event trace. -/
inductive GenOutcome where
  | rejected (msg : String)
  | completed (results : List GenerationResult) (trace : List Event)
deriving DecidableEq, Repr

/-- Results carried by an outcome (none when rejected). -/
def GenOutcome.resultsOf : GenOutcome → List GenerationResult
  | .rejected _ => []
  | .completed rs _ => rs

/-- Events carried by an outcome (none when rejected: the validation
failure returns before any request or callback). -/
def GenOutcome.traceOf : GenOutcome → List Event
  | .rejected _ => []
  | .completed _ t => t

/-- Status line of the final progress callback:
`savedCount + "/" + total + " files saved to " + folder`. -/
def finalStatus (savedCount total : Nat) (folder : String) : String :=
  toString savedCount ++ "/" ++ toString total ++ " files saved to " ++ folder

/-- Function `handleGenerate` (GenerateTab): validate the request, then run the
sequential fetch → generate → save loop over the parsed ids,
surrounding the per-item events with the initial and final progress
callbacks. -/
def handleGenerate (env : GenEnv) (model mdContent testCaseIds outputFolder : String) :
    GenOutcome :=
  let tcIds := parseTestCaseIds testCaseIds
  if tcIds.length = 0 then
    .rejected "Please enter at least one Test Case ID"
  else if jsTrim outputFolder = "" then
    .rejected "Please enter Output Folder path to save generated test scripts"
  else
    let total := tcIds.length
    let run := runBatch env model mdContent outputFolder total 0 tcIds
    let savedCount := (run.1.filter (fun r => r.saved)).length
    .completed run.1
      (Event.progress 0 total "" "Starting..." :: run.2 ++
        [Event.progress total total "Complete!" (finalStatus savedCount total outputFolder)])

/-- Count of completed-item events in a trace. -/
def doneCount (trace : List Event) : Nat :=
  trace.countP (fun e => match e with | .itemDone _ => true | _ => false)

/-- Structure `DryRunResult` as decoded from `/api/test/dry-run`. -/
structure DryRunResult where
  success : Bool
  output : String
  errors : List String
deriving DecidableEq, Repr

/-- Review result decoded from `/api/test/review`. -/
structure ReviewResult where
  feedback : String
  suggestions : List String
  score : Option Int
deriving DecidableEq, Repr

/-- An uploaded script file in ReviewTab: name, id parsed from the
filename, content, size. -/
structure UploadedFile where
  name : String
  tcId : String
  content : String
  size : Nat
deriving DecidableEq, Repr

/-- Request body of `POST /api/test/improve`. -/
structure ImproveBody where
  test_code : String
  test_case_id : String
  model : String
  improvement_request : String
deriving DecidableEq, Repr

/-- Outcome of the improve request: the request (or JSON decoding)
threw, a non-ok response with an optional `detail`, or an ok response
with an optional `test_code`. -/
inductive ImproveOutcome where
  | fail (msg : String)
  | errResp (detail : Option String)
  | okResp (test_code : Option String)
deriving DecidableEq, Repr

/-- The backend as seen by ReviewTab. -/
structure ReviewEnv where
  dryRunApi : String → Except String DryRunResult
  improveApi : ImproveBody → ImproveOutcome

/-- The ReviewTab component state touched by the improve/apply flow
(transient UI flags such as `isImproving` are omitted). -/
structure ReviewState where
  uploadedFiles : List UploadedFile
  selectedFileIndex : Nat
  reviewResult : Option ReviewResult
  dryRunResult : Option DryRunResult
  improvementRequest : String
  improvedCode : String
deriving DecidableEq, Repr

/-- Function `getCurrentFile` (ReviewTab): `uploadedFiles[selectedFileIndex] || null`. -/
def getCurrentFile (s : ReviewState) : Option UploadedFile :=
  s.uploadedFiles.get? s.selectedFileIndex

/-- Function `handleDryRun` (ReviewTab), given the current file's content:
posts the script to the syntax checker and stores the decoded result;
any thrown failure is converted into a
`DryRunResult` with `success := false`, the error text as output and a
one-element error list — never propagated. -/
def handleDryRun (env : ReviewEnv) (content : String) : DryRunResult :=
  match env.dryRunApi content with
  | .ok data => data
  | .error msg =>
    { success := false, output := "Error: " ++ msg, errors := [msg] }

/-- Function `handleImprove` (ReviewTab): requires a current file and a
non-blank improvement request; posts the improve request and stores
the returned code (or an error placeholder) in `improvedCode`.  An
`undefined` `test_code` in an ok response is collapsed to `""` (both
are falsy wherever `improvedCode` is consumed). -/
def handleImprove (env : ReviewEnv) (model : String) (s : ReviewState) : ReviewState :=
  match getCurrentFile s with
  | none => s
  | some file =>
    if jsTrim s.improvementRequest = "" then s
    else
      let body : ImproveBody :=
        { test_code := file.content, test_case_id := file.tcId
          model := model, improvement_request := s.improvementRequest }
      match env.improveApi body with
      | .fail msg => { s with improvedCode := "# Error: " ++ msg }
      | .errResp detail =>
        { s with improvedCode :=
            "# Error: " ++ jsOrStr detail "Failed to improve test" }
      | .okResp tc => { s with improvedCode := jsOrStr tc "" }

/-- Function `applyImprovement` (ReviewTab): when there is improved code and a
selected file, replace only that file's `content` with the improved
code and reset the improved-code, review and dry-run results. -/
def applyImprovement (s : ReviewState) : ReviewState :=
  match s.uploadedFiles.get? s.selectedFileIndex with
  | none => s
  | some file =>
    if s.improvedCode = "" then s
    else
      { s with
        uploadedFiles :=
          s.uploadedFiles.set s.selectedFileIndex { file with content := s.improvedCode }
        improvedCode := ""
        reviewResult := none
        dryRunResult := none }

/-! Helper lemmas about the batch loop -/

/-- A concrete environment in which every endpoint succeeds. -/
def envAllOk : GenEnv :=
  { fetchTC := fun _ =>
      .ok { name := some "Door Lock", feature := some "BCM", precondition := none
            steps := some "step", expected := some "locked" }
    genAI := fun _ => .ok { test_code := some "*** Test Cases ***\nT", validation := none }
    saveApi := fun _ => .okResp (some "/out/file.robot") }

/-- A concrete environment in which the generation endpoint throws. -/
def envGenFail : GenEnv :=
  { fetchTC := fun _ => .notOk
    genAI := fun _ => .error "connection refused"
    saveApi := fun _ => .okResp (some "/out/file.robot") }

/-- A concrete environment in which the test case fetch throws. -/
def envFetchFail : GenEnv :=
  { fetchTC := fun _ => .fail "network error"
    genAI := fun _ => .ok { test_code := some "*** Test Cases ***\nT", validation := none }
    saveApi := fun _ => .okResp (some "/out/file.robot") }

/-- A concrete environment in which saving fails with a detail. -/
def envSaveFail : GenEnv :=
  { fetchTC := fun _ => .notOk
    genAI := fun _ => .ok { test_code := some "*** Test Cases ***\nT", validation := none }
    saveApi := fun _ => .errResp (some "permission denied") }

theorem runBatch_fst_length (env : GenEnv) (model mdContent folder : String)
    (total : Nat) (i : Nat) (ids : List String) :
    (runBatch env model mdContent folder total i ids).1.length = ids.length := by
  induction ids generalizing i with
  | nil => rfl
  | cons id rest ih => simp [runBatch, ih]

theorem runBatch_fst_get (env : GenEnv) (model mdContent folder : String)
    (total : Nat) (i : Nat) (ids : List String) (j : Nat) (hj : j < ids.length)
    (hj' : j < (runBatch env model mdContent folder total i ids).1.length) :
    (runBatch env model mdContent folder total i ids).1.get ⟨j, hj'⟩ =
      (processItem env model mdContent folder total (i + j) (ids.get ⟨j, hj⟩)).1 := by
  induction ids generalizing i j with
  | nil => exact absurd hj (by simp)
  | cons id rest ih =>
    cases j with
    | zero => rfl
    | succ j' =>
      have := ih (i := i + 1) (j := j') (by simpa using hj)
        (by simpa [runBatch] using hj')
      simpa [runBatch, Nat.add_assoc, Nat.add_comm 1 j'] using this

theorem handleGenerate_eq (env : GenEnv) (model mdContent input folder : String)
    (h1 : (parseTestCaseIds input).length ≠ 0) (h2 : jsTrim folder ≠ "") :
    handleGenerate env model mdContent input folder =
      GenOutcome.completed
        (runBatch env model mdContent folder (parseTestCaseIds input).length 0
          (parseTestCaseIds input)).1
        (Event.progress 0 (parseTestCaseIds input).length "" "Starting..." ::
          (runBatch env model mdContent folder (parseTestCaseIds input).length 0
            (parseTestCaseIds input)).2 ++
          [Event.progress (parseTestCaseIds input).length (parseTestCaseIds input).length
            "Complete!"
            (finalStatus
              (((runBatch env model mdContent folder (parseTestCaseIds input).length 0
                  (parseTestCaseIds input)).1.filter (fun r => r.saved)).length)
              (parseTestCaseIds input).length folder)]) := by
  simp [handleGenerate, h1, h2]

theorem handleGenerate_inv (env : GenEnv) (model mdContent input folder : String)
    (rs : List GenerationResult) (t : List Event)
    (h : handleGenerate env model mdContent input folder = GenOutcome.completed rs t) :
    (parseTestCaseIds input).length ≠ 0 ∧ jsTrim folder ≠ "" ∧
      rs = (runBatch env model mdContent folder (parseTestCaseIds input).length 0
        (parseTestCaseIds input)).1 := by
  by_cases h1 : (parseTestCaseIds input).length = 0
  · simp [handleGenerate, h1] at h
  by_cases h2 : jsTrim folder = ""
  · simp [handleGenerate, h1, h2] at h
  refine ⟨h1, h2, ?_⟩
  rw [handleGenerate_eq env model mdContent input folder h1 h2] at h
  exact (GenOutcome.completed.injEq _ _ _ _ ▸ h).1.symm

theorem processItem_tcId (env : GenEnv) (model mdContent folder : String)
    (total i : Nat) (tcId : String) :
    (processItem env model mdContent folder total i tcId).1.tcId = tcId := by
  unfold processItem
  cases h : env.genAI (genBodyFor env model mdContent tcId) <;> simp [h]

theorem processItem_genFail (env : GenEnv) (model mdContent folder : String)
    (total i : Nat) (tcId msg : String)
    (h : env.genAI (genBodyFor env model mdContent tcId) = .error msg) :
    (processItem env model mdContent folder total i tcId).1 =
      { tcId := tcId, status := "error"
        testCode := "*** Test Cases ***\n# Error generating test for " ++ tcId ++ ": " ++ msg
        testCaseName := none, validation := none, error := some msg
        saved := false, savedPath := none, saveError := none } := by
  simp [processItem, h]

theorem handleGenerate_inv_trace (env : GenEnv) (model mdContent input folder : String)
    (rs : List GenerationResult) (t : List Event)
    (h : handleGenerate env model mdContent input folder = GenOutcome.completed rs t) :
    t = Event.progress 0 (parseTestCaseIds input).length "" "Starting..." ::
        (runBatch env model mdContent folder (parseTestCaseIds input).length 0
          (parseTestCaseIds input)).2 ++
        [Event.progress (parseTestCaseIds input).length (parseTestCaseIds input).length
          "Complete!"
          (finalStatus
            (((runBatch env model mdContent folder (parseTestCaseIds input).length 0
                (parseTestCaseIds input)).1.filter (fun r => r.saved)).length)
            (parseTestCaseIds input).length folder)] := by
  obtain ⟨h1, h2, -⟩ := handleGenerate_inv env model mdContent input folder rs t h
  rw [handleGenerate_eq env model mdContent input folder h1 h2] at h
  exact ((GenOutcome.completed.injEq _ _ _ _ ▸ h).2).symm

theorem processItem_fst_index_free (env : GenEnv) (model mdContent folder : String)
    (total i j : Nat) (tcId : String) :
    (processItem env model mdContent folder total i tcId).1 =
      (processItem env model mdContent folder total j tcId).1 := by
  unfold processItem
  cases h : env.genAI (genBodyFor env model mdContent tcId) <;> simp [h]

theorem processItem_save_inv (env : GenEnv) (model mdContent folder : String)
    (total i : Nat) (tcId : String)
    (Henv : ∀ b fp, env.saveApi b = SaveOutcome.okResp fp → ∃ p, fp = some p ∧ p ≠ "") :
    ((processItem env model mdContent folder total i tcId).1.saved = true →
      ∃ p, (processItem env model mdContent folder total i tcId).1.savedPath = some p ∧
        p ≠ "") ∧
    ((processItem env model mdContent folder total i tcId).1.saved = false →
      (processItem env model mdContent folder total i tcId).1.error.isSome ∨
      (processItem env model mdContent folder total i tcId).1.saveError.isSome) := by
  unfold processItem
  cases hg : env.genAI (genBodyFor env model mdContent tcId) with
  | error msg => simp [hg]
  | ok data =>
    simp only [hg]
    unfold saveTestFile
    cases hs : env.saveApi
      { folder_path := folder
        filename := saveFilename tcId
          (jsOrStr ((fetchedSpec env tcId).bind TestCaseData.name) tcId)
        content := jsOrStr data.test_code (noCodeFallback tcId) } with
    | fail msg => simp [hs]
    | errResp detail => simp [hs]
    | okResp fp =>
      obtain ⟨p, hp, hne⟩ := Henv _ _ hs
      simp [hs, hp, hne]

theorem runBatch_fst_mem (env : GenEnv) (model mdContent folder : String) (total : Nat) :
    ∀ (i : Nat) (ids : List String) (r : GenerationResult),
      r ∈ (runBatch env model mdContent folder total i ids).1 →
      ∃ k tcId, tcId ∈ ids ∧
        r = (processItem env model mdContent folder total k tcId).1 := by
  intro i ids
  induction ids generalizing i with
  | nil => intro r hr; simp [runBatch] at hr
  | cons id rest ih =>
    intro r hr
    simp only [runBatch, List.mem_cons] at hr
    rcases hr with hr | hr
    · exact ⟨i, id, by simp, hr⟩
    · obtain ⟨k, tcId, hmem, heq⟩ := ih (i + 1) r hr
      exact ⟨k, tcId, by simp [hmem], heq⟩

theorem runBatch_snd_item_mem (env : GenEnv) (model mdContent folder : String)
    (total : Nat) :
    ∀ (i : Nat) (ids : List String) (j : Nat) (hj : j < ids.length) (e : Event),
      e ∈ (processItem env model mdContent folder total (i + j) (ids.get ⟨j, hj⟩)).2 →
      e ∈ (runBatch env model mdContent folder total i ids).2 := by
  intro i ids
  induction ids generalizing i with
  | nil => intro j hj; exact absurd hj (by simp)
  | cons id rest ih =>
    intro j hj e he
    cases j with
    | zero => simp only [runBatch, List.mem_append]; left; simpa using he
    | succ j' =>
      simp only [runBatch, List.mem_append]; right
      exact ih (i + 1) j' (by simpa using hj) e
        (by simpa [Nat.add_assoc, Nat.add_comm 1 j'] using he)

theorem runBatch_snd_fetch_ids (env : GenEnv) (model mdContent folder : String)
    (total : Nat) :
    ∀ (i : Nat) (ids : List String) (id : String),
      Event.fetchReq id ∈ (runBatch env model mdContent folder total i ids).2 →
      id ∈ ids := by
  intro i ids
  induction ids generalizing i with
  | nil => intro id h; simp [runBatch] at h
  | cons tcId rest ih =>
    intro id h
    simp only [runBatch, List.mem_append] at h
    rcases h with h | h
    · unfold processItem at h
      cases hg : env.genAI (genBodyFor env model mdContent tcId) <;>
        simp [hg] at h <;> simp [h]
    · exact List.mem_cons_of_mem _ (ih (i + 1) id h)

theorem saveTestFile_snd (env : GenEnv) (folder tcId content name : String) :
    (saveTestFile env folder tcId content name).2 =
      { folder_path := folder, filename := saveFilename tcId name, content := content } := by
  unfold saveTestFile
  cases hs : env.saveApi
    { folder_path := folder, filename := saveFilename tcId name, content := content } <;>
    simp [hs]

/-! Claim theorems -/

/-- C2: for every input list of N identifiers, the batch loop of
`handleGenerate` returns exactly N `GenerationResult`s, in the same
order as the input identifiers (the j-th result carries the j-th
input id), regardless of how many individual identifiers fail. -/
theorem generateBatch_length_and_order (env : GenEnv)
    (model mdContent input folder : String)
    (rs : List GenerationResult) (t : List Event)
    (h : handleGenerate env model mdContent input folder = GenOutcome.completed rs t) :
    rs.length = (parseTestCaseIds input).length ∧
      ∀ j (hj : j < (parseTestCaseIds input).length) (hj' : j < rs.length),
        (rs.get ⟨j, hj'⟩).tcId = (parseTestCaseIds input).get ⟨j, hj⟩ := by
  obtain ⟨h1, h2, hrs⟩ := handleGenerate_inv env model mdContent input folder rs t h
  subst hrs
  refine ⟨runBatch_fst_length _ _ _ _ _ _ _, ?_⟩
  intro j hj hj'
  rw [runBatch_fst_get env model mdContent folder (parseTestCaseIds input).length 0
    (parseTestCaseIds input) j hj hj']
  exact processItem_tcId _ _ _ _ _ _ _

/-- Witness for C2 at a concrete two-identifier batch. -/
theorem generateBatch_length_and_order_witness :
    (GenOutcome.resultsOf (handleGenerate envAllOk "exacode" "" "TC-1, TC-2" "out")).length =
        (parseTestCaseIds "TC-1, TC-2").length ∧
      ∀ j (hj : j < (parseTestCaseIds "TC-1, TC-2").length)
        (hj' : j < (GenOutcome.resultsOf
          (handleGenerate envAllOk "exacode" "" "TC-1, TC-2" "out")).length),
        ((GenOutcome.resultsOf
          (handleGenerate envAllOk "exacode" "" "TC-1, TC-2" "out")).get ⟨j, hj'⟩).tcId =
          (parseTestCaseIds "TC-1, TC-2").get ⟨j, hj⟩ :=
  generateBatch_length_and_order envAllOk "exacode" "" "TC-1, TC-2" "out"
    (GenOutcome.resultsOf (handleGenerate envAllOk "exacode" "" "TC-1, TC-2" "out"))
    (GenOutcome.traceOf (handleGenerate envAllOk "exacode" "" "TC-1, TC-2" "out"))
    (by decide)

/-- C1: when the provider/model call for an identifier throws, that
identifier's result has status `"error"`, the thrown message as its
error field, and `saved = false`; the batch still yields one result
per input identifier (no abort). -/
theorem generateBatch_provider_failure (env : GenEnv)
    (model mdContent input folder : String)
    (rs : List GenerationResult) (t : List Event) (j : Nat)
    (hj : j < (parseTestCaseIds input).length) (msg : String)
    (h : handleGenerate env model mdContent input folder = GenOutcome.completed rs t)
    (hfail : env.genAI
      (genBodyFor env model mdContent ((parseTestCaseIds input).get ⟨j, hj⟩)) =
      .error msg) :
    rs.length = (parseTestCaseIds input).length ∧
      ∃ hj' : j < rs.length,
        (rs.get ⟨j, hj'⟩).status = "error" ∧
        (rs.get ⟨j, hj'⟩).error = some msg ∧
        (rs.get ⟨j, hj'⟩).saved = false := by
  obtain ⟨h1, h2, hrs⟩ := handleGenerate_inv env model mdContent input folder rs t h
  subst hrs
  have hlen := runBatch_fst_length env model mdContent folder
    (parseTestCaseIds input).length 0 (parseTestCaseIds input)
  have hj2 : j < (runBatch env model mdContent folder (parseTestCaseIds input).length 0
      (parseTestCaseIds input)).1.length := by
    rw [hlen]; exact hj
  refine ⟨hlen, hj2, ?_⟩
  rw [runBatch_fst_get env model mdContent folder (parseTestCaseIds input).length 0
    (parseTestCaseIds input) j hj]
  rw [processItem_genFail env model mdContent folder _ _ _ msg hfail]
  exact ⟨rfl, rfl, rfl⟩

/-- Witness for C1: both generation calls throw; the second result is
checked. -/
theorem generateBatch_provider_failure_witness :
    (GenOutcome.resultsOf (handleGenerate envGenFail "exacode" "" "TC-1 TC-2" "out")).length =
        (parseTestCaseIds "TC-1 TC-2").length ∧
      ∃ hj' : 1 < (GenOutcome.resultsOf
          (handleGenerate envGenFail "exacode" "" "TC-1 TC-2" "out")).length,
        ((GenOutcome.resultsOf
            (handleGenerate envGenFail "exacode" "" "TC-1 TC-2" "out")).get ⟨1, hj'⟩).status =
          "error" ∧
        ((GenOutcome.resultsOf
            (handleGenerate envGenFail "exacode" "" "TC-1 TC-2" "out")).get ⟨1, hj'⟩).error =
          some "connection refused" ∧
        ((GenOutcome.resultsOf
            (handleGenerate envGenFail "exacode" "" "TC-1 TC-2" "out")).get ⟨1, hj'⟩).saved =
          false :=
  generateBatch_provider_failure envGenFail "exacode" "" "TC-1 TC-2" "out"
    (GenOutcome.resultsOf (handleGenerate envGenFail "exacode" "" "TC-1 TC-2" "out"))
    (GenOutcome.traceOf (handleGenerate envGenFail "exacode" "" "TC-1 TC-2" "out"))
    1 (by decide) "connection refused" (by decide) rfl

/-- C5: a malformed batch request — empty identifier list, or an
empty/whitespace-only destination root — is rejected up front:
`handleGenerate` returns a rejection carrying no results and an empty
event trace (no request issued, no callback fired). -/
theorem generateBatch_validation (env : GenEnv) (model mdContent input folder : String)
    (h : parseTestCaseIds input = [] ∨ ∀ c ∈ folder.data, isJsSpace c) :
    ∃ msg, handleGenerate env model mdContent input folder = GenOutcome.rejected msg ∧
      (handleGenerate env model mdContent input folder).resultsOf = [] ∧
      (handleGenerate env model mdContent input folder).traceOf = [] := by
  rcases h with h | h
  · refine ⟨"Please enter at least one Test Case ID", ?_⟩
    have : (parseTestCaseIds input).length = 0 := by simp [h]
    simp [handleGenerate, this, GenOutcome.resultsOf, GenOutcome.traceOf]
  · by_cases h1 : (parseTestCaseIds input).length = 0
    · refine ⟨"Please enter at least one Test Case ID", ?_⟩
      simp [handleGenerate, h1, GenOutcome.resultsOf, GenOutcome.traceOf]
    · refine ⟨"Please enter Output Folder path to save generated test scripts", ?_⟩
      have htrim : jsTrim folder = "" := by
        have : folder.data.dropWhile isJsSpace = [] :=
          List.dropWhile_eq_nil_iff.mpr fun c hc => h c hc
        simp [jsTrim, jsTrimList, this]
      simp [handleGenerate, h1, htrim, GenOutcome.resultsOf, GenOutcome.traceOf]

/-- Witness for C5 with a whitespace-only destination root. -/
theorem generateBatch_validation_witness :
    ∃ msg, handleGenerate envAllOk "exacode" "" "TC-1" "  " = GenOutcome.rejected msg ∧
      (handleGenerate envAllOk "exacode" "" "TC-1" "  ").resultsOf = [] ∧
      (handleGenerate envAllOk "exacode" "" "TC-1" "  ").traceOf = [] :=
  generateBatch_validation envAllOk "exacode" "" "TC-1" "  " (Or.inr (by decide))

/-- C3: for every result of the batch, `saved = true` implies a
non-empty `savedPath` is present, and `saved = false` implies the
result carries an `error` or a `saveError` — under the persistence
collaborator's contract that an ok save response carries a non-empty
resolved `file_path`. -/
theorem generateBatch_saved_invariant (env : GenEnv)
    (model mdContent input folder : String)
    (rs : List GenerationResult) (t : List Event)
    (Henv : ∀ b fp, env.saveApi b = SaveOutcome.okResp fp → ∃ p, fp = some p ∧ p ≠ "")
    (h : handleGenerate env model mdContent input folder = GenOutcome.completed rs t) :
    ∀ r ∈ rs,
      (r.saved = true → ∃ p, r.savedPath = some p ∧ p ≠ "") ∧
      (r.saved = false → r.error.isSome ∨ r.saveError.isSome) := by
  obtain ⟨h1, h2, hrs⟩ := handleGenerate_inv env model mdContent input folder rs t h
  subst hrs
  intro r hr
  obtain ⟨k, tcId, -, heq⟩ := runBatch_fst_mem env model mdContent folder
    (parseTestCaseIds input).length 0 (parseTestCaseIds input) r hr
  subst heq
  exact processItem_save_inv env model mdContent folder _ k tcId Henv

/-- Witness for C3 with a failing save: `saved = false` carries a
`saveError`. -/
theorem generateBatch_saved_invariant_witness :
    (((GenOutcome.resultsOf (handleGenerate envSaveFail "exacode" "" "TC-1" "out")).get
          ⟨0, by decide⟩).saved = true →
        ∃ p, ((GenOutcome.resultsOf
            (handleGenerate envSaveFail "exacode" "" "TC-1" "out")).get
          ⟨0, by decide⟩).savedPath = some p ∧ p ≠ "") ∧
      (((GenOutcome.resultsOf (handleGenerate envSaveFail "exacode" "" "TC-1" "out")).get
          ⟨0, by decide⟩).saved = false →
        ((GenOutcome.resultsOf (handleGenerate envSaveFail "exacode" "" "TC-1" "out")).get
          ⟨0, by decide⟩).error.isSome ∨
        ((GenOutcome.resultsOf (handleGenerate envSaveFail "exacode" "" "TC-1" "out")).get
          ⟨0, by decide⟩).saveError.isSome) :=
  generateBatch_saved_invariant envSaveFail "exacode" "" "TC-1" "out"
    (GenOutcome.resultsOf (handleGenerate envSaveFail "exacode" "" "TC-1" "out"))
    (GenOutcome.traceOf (handleGenerate envSaveFail "exacode" "" "TC-1" "out"))
    (fun b fp h => by simp [envSaveFail] at h)
    (by decide)
    ((GenOutcome.resultsOf (handleGenerate envSaveFail "exacode" "" "TC-1" "out")).get
      ⟨0, by decide⟩)
    (by decide)

/-- C6: when the test-case fetch for an identifier fails (thrown
request or non-ok response), the spec is `none` rather than an error,
the generation request is still issued for that identifier with the
degraded bare-identifier prompt, and the batch still produces one
result per identifier. -/
theorem generateBatch_fetch_null (env : GenEnv)
    (model mdContent input folder tcId : String)
    (rs : List GenerationResult) (t : List Event) (j : Nat)
    (hj : j < (parseTestCaseIds input).length)
    (htc : (parseTestCaseIds input).get ⟨j, hj⟩ = tcId)
    (h : handleGenerate env model mdContent input folder = GenOutcome.completed rs t)
    (hfail : (∃ msg, env.fetchTC tcId = FetchOutcome.fail msg) ∨
      env.fetchTC tcId = FetchOutcome.notOk) :
    fetchedSpec env tcId = none ∧
      Event.genReq
        { description := "Generate Robot Framework test for Test Case ID: " ++ tcId
          test_type := "automotive", model := model
          automation_context := if mdContent = "" then none else some mdContent } ∈ t ∧
      rs.length = (parseTestCaseIds input).length := by
  obtain ⟨h1, h2, hrs⟩ := handleGenerate_inv env model mdContent input folder rs t h
  have ht := handleGenerate_inv_trace env model mdContent input folder rs t h
  have hspec : fetchedSpec env tcId = none := by
    rcases hfail with ⟨msg, hf⟩ | hf <;>
      (unfold fetchedSpec; rw [hf])
  have hbody : genBodyFor env model mdContent tcId =
      { description := "Generate Robot Framework test for Test Case ID: " ++ tcId
        test_type := "automotive", model := model
        automation_context := if mdContent = "" then none else some mdContent } := by
    simp [genBodyFor, hspec, mkDescription]
  refine ⟨hspec, ?_, hrs ▸ runBatch_fst_length _ _ _ _ _ _ _⟩
  rw [ht]
  have hin : Event.genReq (genBodyFor env model mdContent tcId) ∈
      (processItem env model mdContent folder (parseTestCaseIds input).length (0 + j)
        tcId).2 := by
    unfold processItem
    cases hg : env.genAI (genBodyFor env model mdContent tcId) <;> simp [hg]
  rw [← htc] at hin
  have := runBatch_snd_item_mem env model mdContent folder
    (parseTestCaseIds input).length 0 (parseTestCaseIds input) j hj _ hin
  rw [htc, hbody] at this
  simp [this]

/-- Witness for C6: the fetch for the only identifier throws. -/
theorem generateBatch_fetch_null_witness :
    fetchedSpec envFetchFail "TC-9" = none ∧
      Event.genReq
        { description := "Generate Robot Framework test for Test Case ID: " ++ "TC-9"
          test_type := "automotive", model := "exacode"
          automation_context := if "" = "" then none else some "" } ∈
        GenOutcome.traceOf (handleGenerate envFetchFail "exacode" "" "TC-9" "out") ∧
      (GenOutcome.resultsOf (handleGenerate envFetchFail "exacode" "" "TC-9" "out")).length =
        (parseTestCaseIds "TC-9").length :=
  generateBatch_fetch_null envFetchFail "exacode" "" "TC-9" "out" "TC-9"
    (GenOutcome.resultsOf (handleGenerate envFetchFail "exacode" "" "TC-9" "out"))
    (GenOutcome.traceOf (handleGenerate envFetchFail "exacode" "" "TC-9" "out"))
    0 (by decide) (by decide) (by decide) (Or.inl ⟨"network error", rfl⟩)

/-- C7: duplicate identifiers are processed independently, with no
deduplication: each occurrence yields its own (identical, since the
environment is deterministic) result and runs its own
fetch-generate-save cycle; any save request issued by either
occurrence targets the same folder and the same filename — derived
only from the id and the fetched name — so a later occurrence
overwrites the earlier occurrence's file. -/
theorem generateBatch_duplicates (env : GenEnv)
    (model mdContent input folder tcId : String)
    (rs : List GenerationResult) (t : List Event) (i j : Nat)
    (hi : i < (parseTestCaseIds input).length)
    (hj : j < (parseTestCaseIds input).length)
    (htci : (parseTestCaseIds input).get ⟨i, hi⟩ = tcId)
    (htcj : (parseTestCaseIds input).get ⟨j, hj⟩ = tcId)
    (h : handleGenerate env model mdContent input folder = GenOutcome.completed rs t) :
    rs.length = (parseTestCaseIds input).length ∧
      (∃ (hi' : i < rs.length) (hj' : j < rs.length),
        rs.get ⟨i, hi'⟩ = rs.get ⟨j, hj'⟩) ∧
      Event.fetchReq tcId ∈
        (processItem env model mdContent folder (parseTestCaseIds input).length i tcId).2 ∧
      Event.fetchReq tcId ∈
        (processItem env model mdContent folder (parseTestCaseIds input).length j tcId).2 ∧
      (∀ b, Event.saveReq b ∈
          (processItem env model mdContent folder (parseTestCaseIds input).length i tcId).2 ↔
        Event.saveReq b ∈
          (processItem env model mdContent folder (parseTestCaseIds input).length j tcId).2) ∧
      (∀ b, Event.saveReq b ∈
          (processItem env model mdContent folder (parseTestCaseIds input).length i tcId).2 →
        b.folder_path = folder ∧
        b.filename = saveFilename tcId
          (jsOrStr ((fetchedSpec env tcId).bind TestCaseData.name) tcId)) := by
  obtain ⟨h1, h2, hrs⟩ := handleGenerate_inv env model mdContent input folder rs t h
  have hlen : rs.length = (parseTestCaseIds input).length := by
    rw [hrs]; exact runBatch_fst_length _ _ _ _ _ _ _
  refine ⟨hlen, ?_, ?_, ?_, ?_, ?_⟩
  · have hi' : i < rs.length := by rw [hlen]; exact hi
    have hj' : j < rs.length := by rw [hlen]; exact hj
    refine ⟨hi', hj', ?_⟩
    subst hrs
    rw [runBatch_fst_get env model mdContent folder (parseTestCaseIds input).length 0
        (parseTestCaseIds input) i hi,
      runBatch_fst_get env model mdContent folder (parseTestCaseIds input).length 0
        (parseTestCaseIds input) j hj, htci, htcj]
    exact processItem_fst_index_free _ _ _ _ _ _ _ _
  · unfold processItem
    cases hg : env.genAI (genBodyFor env model mdContent tcId) <;> simp [hg]
  · unfold processItem
    cases hg : env.genAI (genBodyFor env model mdContent tcId) <;> simp [hg]
  · intro b
    unfold processItem
    cases hg : env.genAI (genBodyFor env model mdContent tcId) <;> simp [hg]
  · intro b hb
    unfold processItem at hb
    cases hg : env.genAI (genBodyFor env model mdContent tcId) with
    | error msg => simp [hg] at hb
    | ok data =>
      simp [hg] at hb
      subst hb
      rw [saveTestFile_snd]
      exact ⟨rfl, rfl⟩

/-- Witness for C7: the batch `"TC-1 TC-1"` under the all-ok
environment. -/
theorem generateBatch_duplicates_witness :
    (GenOutcome.resultsOf (handleGenerate envAllOk "exacode" "" "TC-1 TC-1" "out")).length =
        (parseTestCaseIds "TC-1 TC-1").length ∧
      (∃ (hi' : 0 < (GenOutcome.resultsOf
            (handleGenerate envAllOk "exacode" "" "TC-1 TC-1" "out")).length)
         (hj' : 1 < (GenOutcome.resultsOf
            (handleGenerate envAllOk "exacode" "" "TC-1 TC-1" "out")).length),
        (GenOutcome.resultsOf
            (handleGenerate envAllOk "exacode" "" "TC-1 TC-1" "out")).get ⟨0, hi'⟩ =
          (GenOutcome.resultsOf
            (handleGenerate envAllOk "exacode" "" "TC-1 TC-1" "out")).get ⟨1, hj'⟩) ∧
      Event.fetchReq "TC-1" ∈
        (processItem envAllOk "exacode" "" "out" (parseTestCaseIds "TC-1 TC-1").length 0
          "TC-1").2 ∧
      Event.fetchReq "TC-1" ∈
        (processItem envAllOk "exacode" "" "out" (parseTestCaseIds "TC-1 TC-1").length 1
          "TC-1").2 ∧
      (∀ b, Event.saveReq b ∈
          (processItem envAllOk "exacode" "" "out" (parseTestCaseIds "TC-1 TC-1").length 0
            "TC-1").2 ↔
        Event.saveReq b ∈
          (processItem envAllOk "exacode" "" "out" (parseTestCaseIds "TC-1 TC-1").length 1
            "TC-1").2) ∧
      (∀ b, Event.saveReq b ∈
          (processItem envAllOk "exacode" "" "out" (parseTestCaseIds "TC-1 TC-1").length 0
            "TC-1").2 →
        b.folder_path = "out" ∧
        b.filename = saveFilename "TC-1"
          (jsOrStr ((fetchedSpec envAllOk "TC-1").bind TestCaseData.name) "TC-1")) :=
  generateBatch_duplicates envAllOk "exacode" "" "TC-1 TC-1" "out" "TC-1"
    (GenOutcome.resultsOf (handleGenerate envAllOk "exacode" "" "TC-1 TC-1" "out"))
    (GenOutcome.traceOf (handleGenerate envAllOk "exacode" "" "TC-1 TC-1" "out"))
    0 1 (by decide) (by decide) (by decide) (by decide) (by decide)

/-- C4: `handleDryRun` is total — every input script (the empty string
included) and every checker outcome yield a structured `DryRunResult`
— and any thrown checker invocation is converted into
`success = false`, the message as output, and a one-element error
list, rather than being propagated. -/
theorem dryRun_total (env : ReviewEnv) (content : String) :
    (∃ r : DryRunResult, handleDryRun env content = r) ∧
      (∀ msg, env.dryRunApi content = Except.error msg →
        handleDryRun env content =
          { success := false, output := "Error: " ++ msg, errors := [msg] }) ∧
      (∀ d, env.dryRunApi content = Except.ok d → handleDryRun env content = d) := by
  refine ⟨⟨handleDryRun env content, rfl⟩, ?_, ?_⟩
  · intro msg hm; simp [handleDryRun, hm]
  · intro d hd; simp [handleDryRun, hd]

/-- Witness for C4 on the empty script with an unreachable checker. -/
theorem dryRun_total_witness :
    (∃ r : DryRunResult,
        handleDryRun
          { dryRunApi := fun _ => Except.error "checker unreachable"
            improveApi := fun _ => ImproveOutcome.okResp none } "" = r) ∧
      (∀ msg,
        ({ dryRunApi := fun _ => Except.error "checker unreachable"
           improveApi := fun _ => ImproveOutcome.okResp none } : ReviewEnv).dryRunApi "" =
            Except.error msg →
        handleDryRun
          { dryRunApi := fun _ => Except.error "checker unreachable"
            improveApi := fun _ => ImproveOutcome.okResp none } "" =
          { success := false, output := "Error: " ++ msg, errors := [msg] }) ∧
      (∀ d,
        ({ dryRunApi := fun _ => Except.error "checker unreachable"
           improveApi := fun _ => ImproveOutcome.okResp none } : ReviewEnv).dryRunApi "" =
            Except.ok d →
        handleDryRun
          { dryRunApi := fun _ => Except.error "checker unreachable"
            improveApi := fun _ => ImproveOutcome.okResp none } "" = d) :=
  dryRun_total
    { dryRunApi := fun _ => Except.error "checker unreachable"
      improveApi := fun _ => ImproveOutcome.okResp none } ""

/-- C9: `handleImprove` never mutates the uploaded files (it only
stores the returned text), and `applyImprovement` — the separate
explicit action — replaces only the selected file's `content`,
preserves its name, id and size and every other file, and resets the
improved-code, review and dry-run results. -/
theorem improve_pure_apply_frame (env : ReviewEnv) (model : String) (s : ReviewState) :
    (handleImprove env model s).uploadedFiles = s.uploadedFiles ∧
      ∀ file, s.uploadedFiles.get? s.selectedFileIndex = some file →
        s.improvedCode ≠ "" →
        (applyImprovement s).uploadedFiles.length = s.uploadedFiles.length ∧
        (applyImprovement s).uploadedFiles.get? s.selectedFileIndex =
          some { file with content := s.improvedCode } ∧
        (∀ k, k ≠ s.selectedFileIndex →
          (applyImprovement s).uploadedFiles.get? k = s.uploadedFiles.get? k) ∧
        (applyImprovement s).improvedCode = "" ∧
        (applyImprovement s).reviewResult = none ∧
        (applyImprovement s).dryRunResult = none ∧
        (applyImprovement s).selectedFileIndex = s.selectedFileIndex ∧
        (applyImprovement s).improvementRequest = s.improvementRequest := by
  constructor
  · unfold handleImprove
    cases hf : getCurrentFile s with
    | none => rfl
    | some file =>
      by_cases hreq : jsTrim s.improvementRequest = ""
      · simp [hreq]
      · simp only [hreq, if_false]
        cases env.improveApi
          { test_code := file.content, test_case_id := file.tcId
            model := model, improvement_request := s.improvementRequest } <;> rfl
  · intro file hfile hcode
    have hlt : s.selectedFileIndex < s.uploadedFiles.length := by
      rcases List.get?_eq_some.mp hfile with ⟨h, -⟩; exact h
    unfold applyImprovement
    rw [hfile]
    simp only [hcode, if_false]
    refine ⟨by simp, ?_, ?_, by simp, by simp, by simp, by simp, by simp⟩
    · rw [List.get?_set_of_lt' _ _ hlt]; simp
    · intro k hk
      rw [List.get?_set_of_lt' _ _ hlt, if_neg (fun hc => hk hc.symm)]

/-- Witness for C9 at a concrete one-file state. -/
theorem improve_pure_apply_frame_witness :
    (handleImprove
        { dryRunApi := fun _ => Except.error "x"
          improveApi := fun _ => ImproveOutcome.okResp (some "improved") }
        "exacode"
        { uploadedFiles := [{ name := "TC-1_T.robot", tcId := "TC-1", content := "old", size := 3 }]
          selectedFileIndex := 0, reviewResult := none, dryRunResult := none
          improvementRequest := "fix", improvedCode := "new" }).uploadedFiles =
      [{ name := "TC-1_T.robot", tcId := "TC-1", content := "old", size := 3 }] ∧
    (applyImprovement
        { uploadedFiles := [{ name := "TC-1_T.robot", tcId := "TC-1", content := "old", size := 3 }]
          selectedFileIndex := 0, reviewResult := none, dryRunResult := none
          improvementRequest := "fix", improvedCode := "new" }).uploadedFiles.get? 0 =
      some { name := "TC-1_T.robot", tcId := "TC-1", content := "new", size := 3 } ∧
    (applyImprovement
        { uploadedFiles := [{ name := "TC-1_T.robot", tcId := "TC-1", content := "old", size := 3 }]
          selectedFileIndex := 0, reviewResult := none, dryRunResult := none
          improvementRequest := "fix", improvedCode := "new" }).improvedCode = "" := by
  have h := improve_pure_apply_frame
    { dryRunApi := fun _ => Except.error "x"
      improveApi := fun _ => ImproveOutcome.okResp (some "improved") }
    "exacode"
    { uploadedFiles := [{ name := "TC-1_T.robot", tcId := "TC-1", content := "old", size := 3 }]
      selectedFileIndex := 0, reviewResult := none, dryRunResult := none
      improvementRequest := "fix", improvedCode := "new" }
  have h2 := h.2 { name := "TC-1_T.robot", tcId := "TC-1", content := "old", size := 3 }
    (by decide) (by decide)
  exact ⟨h.1, h2.2.1, h2.2.2.2.1⟩

theorem tokenizeIds_wf :
    ∀ (l cur : List Char), (∀ c ∈ cur, isIdSep c = false) →
      ∀ tok ∈ tokenizeIds cur l, tok ≠ [] ∧ ∀ c ∈ tok, isIdSep c = false := by
  intro l
  induction l with
  | nil =>
    intro cur hcur tok htok
    by_cases hc : cur.isEmpty
    · simp [tokenizeIds, hc] at htok
    · simp [tokenizeIds, hc] at htok
      subst htok
      have hne : cur ≠ [] := by
        intro hnil; subst hnil; simp at hc
      exact ⟨by simpa using hne, fun c hcm => hcur c (List.mem_reverse.mp hcm)⟩
  | cons c rest ih =>
    intro cur hcur tok htok
    by_cases hsep : isIdSep c
    · by_cases hc : cur.isEmpty
      · rw [tokenizeIds, if_pos hsep, if_pos hc] at htok
        exact ih [] (by simp) tok htok
      · rw [tokenizeIds, if_pos hsep, if_neg hc] at htok
        rcases List.mem_cons.mp htok with htok | htok
        · subst htok
          have hne : cur ≠ [] := by
            intro hnil; subst hnil; simp at hc
          exact ⟨by simpa using hne, fun d hdm => hcur d (List.mem_reverse.mp hdm)⟩
        · exact ih [] (by simp) tok htok
    · rw [tokenizeIds, if_neg hsep] at htok
      refine ih (c :: cur) ?_ tok htok
      intro d hd
      rcases List.mem_cons.mp hd with hd | hd
      · subst hd; exact Bool.not_eq_true _ ▸ (by simpa using hsep)
      · exact hcur d hd

/-- C10: every identifier produced by `parseTestCaseIds` is non-empty
and free of comma, space and newline characters; consequently the
batch loop never fetches an empty identifier, and the identifier
count displayed before generation equals the number of results the
batch produces. -/
theorem parseTestCaseIds_wellformed (input : String) :
    (∀ s ∈ parseTestCaseIds input, s.data ≠ [] ∧
        ∀ c ∈ s.data, c ≠ ',' ∧ c ≠ ' ' ∧ c ≠ '\n') ∧
      ∀ (env : GenEnv) (model mdContent folder : String)
        (rs : List GenerationResult) (t : List Event),
        handleGenerate env model mdContent input folder = GenOutcome.completed rs t →
        (∀ id, Event.fetchReq id ∈ t → id ≠ "") ∧
        rs.length = (parseTestCaseIds input).length := by
  have hwf : ∀ s ∈ parseTestCaseIds input, s.data ≠ [] ∧
      ∀ c ∈ s.data, c ≠ ',' ∧ c ≠ ' ' ∧ c ≠ '\n' := by
    intro s hs
    obtain ⟨tok, htok, heq⟩ := List.mem_map.mp hs
    obtain ⟨hne, hchars⟩ := tokenizeIds_wf input.data [] (by simp) tok htok
    subst heq
    refine ⟨by simpa using hne, ?_⟩
    intro c hc
    have := hchars c (by simpa using hc)
    simp [isIdSep, isJsSpace] at this
    exact ⟨this.1, by tauto, by tauto⟩
  refine ⟨hwf, ?_⟩
  intro env model mdContent folder rs t h
  obtain ⟨h1, h2, hrs⟩ := handleGenerate_inv env model mdContent input folder rs t h
  have ht := handleGenerate_inv_trace env model mdContent input folder rs t h
  constructor
  · intro id hid
    rw [ht] at hid
    rcases List.mem_cons.mp hid with hid | hid
    · exact absurd hid (by simp)
    rcases List.mem_append.mp hid with hid | hid
    · have hmem := runBatch_snd_fetch_ids env model mdContent folder
        (parseTestCaseIds input).length 0 (parseTestCaseIds input) id hid
      have := (hwf id hmem).1
      intro hempty
      subst hempty
      exact this rfl
    · exact absurd hid (by simp)
  · rw [hrs]; exact runBatch_fst_length _ _ _ _ _ _ _

/-- Witness for C10 on a concrete input with repeated separators. -/
theorem parseTestCaseIds_wellformed_witness :
    (∀ s ∈ parseTestCaseIds "TC-1,,TC-2\n TC-3", s.data ≠ [] ∧
        ∀ c ∈ s.data, c ≠ ',' ∧ c ≠ ' ' ∧ c ≠ '\n') ∧
      ((∀ id, Event.fetchReq id ∈
          GenOutcome.traceOf (handleGenerate envAllOk "exacode" "" "TC-1,,TC-2\n TC-3" "out") →
          id ≠ "") ∧
        (GenOutcome.resultsOf
            (handleGenerate envAllOk "exacode" "" "TC-1,,TC-2\n TC-3" "out")).length =
          (parseTestCaseIds "TC-1,,TC-2\n TC-3").length) :=
  ⟨(parseTestCaseIds_wellformed "TC-1,,TC-2\n TC-3").1,
    (parseTestCaseIds_wellformed "TC-1,,TC-2\n TC-3").2 envAllOk "exacode" "" "out"
      (GenOutcome.resultsOf (handleGenerate envAllOk "exacode" "" "TC-1,,TC-2\n TC-3" "out"))
      (GenOutcome.traceOf (handleGenerate envAllOk "exacode" "" "TC-1,,TC-2\n TC-3" "out"))
      (by decide)⟩

theorem processItem_snd_error (env : GenEnv) (model mdContent folder : String)
    (total i : Nat) (tcId msg : String)
    (h : env.genAI (genBodyFor env model mdContent tcId) = .error msg) :
    (processItem env model mdContent folder total i tcId).2 =
      [Event.progress (i + 1) total tcId "Generating...", Event.fetchReq tcId,
       Event.genReq (genBodyFor env model mdContent tcId), Event.itemDone tcId] := by
  simp [processItem, h]

theorem processItem_snd_ok (env : GenEnv) (model mdContent folder : String)
    (total i : Nat) (tcId : String) (data : GenData)
    (h : env.genAI (genBodyFor env model mdContent tcId) = .ok data) :
    (processItem env model mdContent folder total i tcId).2 =
      [Event.progress (i + 1) total tcId "Generating...", Event.fetchReq tcId,
       Event.genReq (genBodyFor env model mdContent tcId),
       Event.progress (i + 1) total tcId "Saving...",
       Event.saveReq (saveTestFile env folder tcId
         (jsOrStr data.test_code (noCodeFallback tcId))
         (jsOrStr ((fetchedSpec env tcId).bind TestCaseData.name) tcId)).2,
       Event.itemDone tcId] := by
  simp [processItem, h]

theorem cons_split {α : Type} (x : α) (xs pre post : List α) (e : α)
    (h : x :: xs = pre ++ e :: post) :
    (pre = [] ∧ x = e ∧ xs = post) ∨
      ∃ pre1, pre = x :: pre1 ∧ xs = pre1 ++ e :: post := by
  cases pre with
  | nil =>
    injection h with h1 h2
    exact Or.inl ⟨rfl, h1, h2⟩
  | cons a pre1 =>
    injection h with h1 h2
    subst h1
    exact Or.inr ⟨pre1, rfl, h2⟩

theorem append_singleton_split {α : Type} (xs : List α) (y : α) (pre post : List α) (e : α)
    (h : xs ++ [y] = pre ++ e :: post) :
    (∃ post1, xs = pre ++ e :: post1 ∧ post = post1 ++ [y]) ∨
      (pre = xs ∧ e = y ∧ post = []) := by
  induction xs generalizing pre with
  | nil =>
    rcases pre with _ | ⟨a, pre1⟩
    · injection h with h1 h2
      exact Or.inr ⟨rfl, h1.symm, h2.symm⟩
    · injection h with h1 h2
      exact absurd h2.symm (by simp)
  | cons x xs ih =>
    rcases cons_split x (xs ++ [y]) pre post e h with ⟨hpre, hx, hpost⟩ | ⟨pre1, hpre, h1⟩
    · subst hpre; subst hx
      exact Or.inl ⟨xs, rfl, hpost.symm⟩
    · rcases ih pre1 h1 with ⟨post1, hxs, hpost⟩ | ⟨hpre1, he, hpost⟩
      · subst hpre
        exact Or.inl ⟨post1, by rw [hxs]; rfl, hpost⟩
      · subst hpre; subst hpre1
        exact Or.inr ⟨rfl, he, hpost⟩

theorem doneCount_nil : doneCount [] = 0 := rfl

theorem doneCount_runBatch (env : GenEnv) (model mdContent folder : String)
    (total : Nat) :
    ∀ (i : Nat) (ids : List String),
      doneCount (runBatch env model mdContent folder total i ids).2 = ids.length := by
  intro i ids
  induction ids generalizing i with
  | nil => rfl
  | cons id rest ih =>
    rw [runBatch]
    simp only [doneCount, List.countP_append]
    have hitem : (processItem env model mdContent folder total i id).2.countP
        (fun e => match e with | .itemDone _ => true | _ => false) = 1 := by
      cases hg : env.genAI (genBodyFor env model mdContent id) with
      | error msg => rw [processItem_snd_error env model mdContent folder total i id msg hg]; rfl
      | ok data => rw [processItem_snd_ok env model mdContent folder total i id data hg]; rfl
    rw [hitem]
    have := ih (i + 1)
    simp only [doneCount] at this
    rw [this]
    simp [Nat.add_comm]

theorem runBatch_generating_anatomy (env : GenEnv) (model mdContent folder : String)
    (total : Nat) :
    ∀ (ids : List String) (i : Nat) (pre post : List Event) (k nn : Nat) (idd : String),
      (runBatch env model mdContent folder total i ids).2 =
        pre ++ Event.progress k nn idd "Generating..." :: post →
      i + 1 ≤ k ∧ k ≤ i + ids.length ∧ doneCount pre = k - (i + 1) := by
  intro ids
  induction ids with
  | nil =>
    intro i pre post k nn idd h
    exact absurd h (by simp [runBatch])
  | cons id rest ih =>
    intro i pre post k nn idd h
    rw [runBatch] at h
    cases hg : env.genAI (genBodyFor env model mdContent id) with
    | error msg =>
      rw [processItem_snd_error env model mdContent folder total i id msg hg] at h
      simp only [List.cons_append, List.nil_append] at h
      rcases cons_split _ _ _ _ _ h with ⟨hpre, hx, -⟩ | ⟨pre1, hpre, h⟩
      · injection hx with e1 e2 e3 e4
        subst hpre; subst e1
        refine ⟨Nat.le_refl _, by simp, by simp [doneCount]⟩
      rcases cons_split _ _ _ _ _ h with ⟨-, hx, -⟩ | ⟨pre2, hpre2, h⟩
      · exact absurd hx (by simp)
      rcases cons_split _ _ _ _ _ h with ⟨-, hx, -⟩ | ⟨pre3, hpre3, h⟩
      · exact absurd hx (by simp)
      rcases cons_split _ _ _ _ _ h with ⟨-, hx, -⟩ | ⟨pre4, hpre4, h⟩
      · exact absurd hx (by simp)
      obtain ⟨hk1, hk2, hd⟩ := ih (i + 1) pre4 post k nn idd h
      subst hpre; subst hpre2; subst hpre3; subst hpre4
      refine ⟨by omega, by simp; omega, ?_⟩
      simp only [doneCount] at hd ⊢
      simp [List.countP_cons] at hd ⊢
      omega
    | ok data =>
      rw [processItem_snd_ok env model mdContent folder total i id data hg] at h
      simp only [List.cons_append, List.nil_append] at h
      rcases cons_split _ _ _ _ _ h with ⟨hpre, hx, -⟩ | ⟨pre1, hpre, h⟩
      · injection hx with e1 e2 e3 e4
        subst hpre; subst e1
        refine ⟨Nat.le_refl _, by simp, by simp [doneCount]⟩
      rcases cons_split _ _ _ _ _ h with ⟨-, hx, -⟩ | ⟨pre2, hpre2, h⟩
      · exact absurd hx (by simp)
      rcases cons_split _ _ _ _ _ h with ⟨-, hx, -⟩ | ⟨pre3, hpre3, h⟩
      · exact absurd hx (by simp)
      rcases cons_split _ _ _ _ _ h with ⟨-, hx, -⟩ | ⟨pre4, hpre4, h⟩
      · injection hx with e1 e2 e3 e4
        exact absurd e4 (by decide)
      rcases cons_split _ _ _ _ _ h with ⟨-, hx, -⟩ | ⟨pre5, hpre5, h⟩
      · exact absurd hx (by simp)
      rcases cons_split _ _ _ _ _ h with ⟨-, hx, -⟩ | ⟨pre6, hpre6, h⟩
      · exact absurd hx (by simp)
      obtain ⟨hk1, hk2, hd⟩ := ih (i + 1) pre6 post k nn idd h
      subst hpre; subst hpre2; subst hpre3; subst hpre4; subst hpre5; subst hpre6
      refine ⟨by omega, by simp; omega, ?_⟩
      simp only [doneCount] at hd ⊢
      simp [List.countP_cons] at hd ⊢
      omega

theorem finalStatus_ne_generating (savedCount total : Nat) (folder : String) :
    finalStatus savedCount total folder ≠ "Generating..." := by
  intro h
  have hmem : '/' ∈ (finalStatus savedCount total folder).data := by
    simp [finalStatus, String.data_append]
  rw [h] at hmem
  exact absurd hmem (by decide)

/-- C8 counterexample: the claim "whenever the progress callback
reports count k, the first k identifiers have finished processing" is
false on a concrete one-identifier batch — the callback reporting
`current = 1` fires before the identifier has completed (zero
completed-item updates precede it). -/
theorem generateBatch_progress_claim_false :
    ¬ ∀ (pre post : List Event) (k nn : Nat) (idd st : String),
        GenOutcome.traceOf (handleGenerate envAllOk "exacode" "" "TC-1" "out") =
          pre ++ Event.progress k nn idd st :: post →
        k ≤ doneCount pre := by
  intro hclaim
  have h := hclaim [Event.progress 0 1 "" "Starting..."]
    [Event.fetchReq "TC-1",
     Event.genReq (genBodyFor envAllOk "exacode" "" "TC-1"),
     Event.progress 1 1 "TC-1" "Saving...",
     Event.saveReq (saveTestFile envAllOk "out" "TC-1" "*** Test Cases ***\nT"
       "Door Lock").2,
     Event.itemDone "TC-1",
     Event.progress 1 1 "Complete!" (finalStatus 1 1 "out")]
    1 1 "TC-1" "Generating..." (by decide)
  have hd : doneCount [Event.progress 0 1 "" "Starting..."] = 0 := by decide
  rw [hd] at h
  exact absurd h (by decide)

/-- C8 amended: the progress callback is invoked *before* each
identifier is processed, carrying `current = k` (the 1-based index of
the identifier now being processed, `1 ≤ k ≤ N`), so at that moment
exactly the first `k - 1` identifiers have finished; the live results
sequence is updated once after each identifier completes (`N` updates
over the whole batch). -/
theorem generateBatch_progress_semantics (env : GenEnv)
    (model mdContent input folder : String)
    (rs : List GenerationResult) (t : List Event)
    (pre post : List Event) (k nn : Nat) (idd : String)
    (h : handleGenerate env model mdContent input folder = GenOutcome.completed rs t)
    (hsplit : t = pre ++ Event.progress k nn idd "Generating..." :: post) :
    (1 ≤ k ∧ k ≤ (parseTestCaseIds input).length ∧ doneCount pre = k - 1) ∧
      doneCount t = (parseTestCaseIds input).length := by
  have ht := handleGenerate_inv_trace env model mdContent input folder rs t h
  constructor
  · rw [ht] at hsplit
    rw [List.cons_append] at hsplit
    rcases cons_split _ _ _ _ _ hsplit with ⟨hpre, hx, -⟩ | ⟨pre1, hpre, h1⟩
    · exact absurd hx (by simp)
    · rcases append_singleton_split _ _ _ _ _ h1 with ⟨post1, hloop, -⟩ | ⟨-, he, -⟩
      · obtain ⟨hk1, hk2, hd⟩ := runBatch_generating_anatomy env model mdContent folder
          (parseTestCaseIds input).length (parseTestCaseIds input) 0 pre1 post1 k nn idd
          hloop
        subst hpre
        refine ⟨by omega, by simpa using hk2, ?_⟩
        simp only [doneCount, List.countP_cons] at hd ⊢
        simpa using hd
      · injection he with e1 e2 e3 e4
        exact absurd e4.symm (finalStatus_ne_generating _ _ _)
  · rw [ht]
    simp only [List.cons_append, doneCount, List.countP_cons, List.countP_append]
    have := doneCount_runBatch env model mdContent folder
      (parseTestCaseIds input).length 0 (parseTestCaseIds input)
    simp only [doneCount] at this
    simp [this]

/-- Witness for the amended C8 at the concrete one-identifier batch:
the `current = 1` callback has exactly zero completed identifiers
before it, and one results update happens in total. -/
theorem generateBatch_progress_semantics_witness :
    ((1 : Nat) ≤ 1 ∧ 1 ≤ (parseTestCaseIds "TC-1").length ∧
        doneCount [Event.progress 0 1 "" "Starting..."] = 1 - 1) ∧
      doneCount (GenOutcome.traceOf (handleGenerate envAllOk "exacode" "" "TC-1" "out")) =
        (parseTestCaseIds "TC-1").length :=
  generateBatch_progress_semantics envAllOk "exacode" "" "TC-1" "out"
    (GenOutcome.resultsOf (handleGenerate envAllOk "exacode" "" "TC-1" "out"))
    (GenOutcome.traceOf (handleGenerate envAllOk "exacode" "" "TC-1" "out"))
    [Event.progress 0 1 "" "Starting..."]
    [Event.fetchReq "TC-1",
     Event.genReq (genBodyFor envAllOk "exacode" "" "TC-1"),
     Event.progress 1 1 "TC-1" "Saving...",
     Event.saveReq (saveTestFile envAllOk "out" "TC-1" "*** Test Cases ***\nT"
       "Door Lock").2,
     Event.itemDone "TC-1",
     Event.progress 1 1 "Complete!" (finalStatus 1 1 "out")]
    1 1 "TC-1" (by decide) (by decide)

end AIAgent
